import Mathlib

/-!
# Verification of the locness-instarho streaming-data pipeline

Shallow embedding of the two scripts:
* `setup_database.py` — schema creation (`create_database`), historical
  seeding (`insert_sample_data`), and the streaming producer loop
  (`simulate_streaming_data`);
* `streamlit_app.py` — the connection helper (`get_database_connection`),
  the window query (`load_data`), the latest-row read
  (`get_latest_values`), and the refresh logic at the end of `main`.

Timestamps are modelled as integers (seconds); the numeric sensor fields
are carried as integers as well — every operation of the code passes them
through unchanged, so the carrier type is irrelevant to the properties.
SQL rows live in a `Store` holding the `sensor_data` table's rows in
insertion order together with the schema flag (`CREATE TABLE IF NOT
EXISTS`) and the auto-increment counter.
-/

/-- One row of the `sensor_data` table. -/
structure Reading where
  id : Nat
  timestamp : Int
  temperature : Int
  humidity : Int
  pressure : Int
deriving DecidableEq, Repr

/-- The SQLite database file: schema flag (does `sensor_data` exist),
auto-increment counter, and the rows in insertion order. -/
structure Store where
  schema : Bool
  nextId : Nat
  rows : List Reading
deriving DecidableEq, Repr

/-- Ascending comparison on timestamps (`ORDER BY timestamp` /
`sort_values('timestamp')`). -/
def tsLe (a b : Reading) : Prop := a.timestamp ≤ b.timestamp

/-- Descending comparison on timestamps (`ORDER BY timestamp DESC`). -/
def tsGe (a b : Reading) : Prop := b.timestamp ≤ a.timestamp

instance : DecidableRel tsLe := fun a b =>
  inferInstanceAs (Decidable (a.timestamp ≤ b.timestamp))

instance : DecidableRel tsGe := fun a b =>
  inferInstanceAs (Decidable (b.timestamp ≤ a.timestamp))

instance : IsTotal Reading tsLe := ⟨fun _ _ => Int.le_total _ _⟩

instance : IsTrans Reading tsLe := ⟨fun _ _ _ hab hbc => le_trans hab hbc⟩

instance : IsTotal Reading tsGe := ⟨fun _ _ => Int.le_total _ _⟩

instance : IsTrans Reading tsGe := ⟨fun _ _ _ hab hbc => le_trans hbc hab⟩

/-- `create_database` (setup_database.py): `CREATE TABLE IF NOT EXISTS
sensor_data (...)` — ensures the schema exists, touches nothing else. -/
def create_database (s : Store) : Store := { s with schema := true }

/-- A single `INSERT INTO sensor_data (timestamp, temperature, humidity,
pressure) VALUES (?,?,?,?)` with a caller-supplied timestamp: appends one
row, assigns the auto-increment id. -/
def insert_reading (s : Store) (ts t h p : Int) : Store :=
  { s with
      nextId := s.nextId + 1
      rows := s.rows ++ [⟨s.nextId, ts, t, h, p⟩] }

/-- Timestamp of the `i`-th seeded row in `insert_sample_data`:
`base_time + timedelta(minutes=i * 14.4)` with
`base_time = datetime.now() - timedelta(hours=24)`; 14.4 minutes is 864
seconds, 24 hours is 86400 seconds. -/
def seed_timestamp (now : Int) (i : Nat) : Int := now - 86400 + 864 * i

/-- Loop body of `insert_sample_data`: one seeded insert for index `i`,
with the Gaussian draws supplied by the oracle `vals`. -/
def seed_step (now : Int) (vals : Nat → Int × Int × Int) (st : Store) (i : Nat) :
    Store :=
  insert_reading st (seed_timestamp now i) (vals i).1 (vals i).2.1 (vals i).2.2

/-- `insert_sample_data` (setup_database.py): inserts 100 historical rows
at timestamps `now - 24h + i * 14.4min` for `i = 0, …, 99`. The random
per-row field values are supplied by the oracle `vals`. -/
def insert_sample_data (now : Int) (vals : Nat → Int × Int × Int) (s : Store) :
    Store :=
  (List.range 100).foldl (seed_step now vals) s

/-- The SQL part of `load_data`: `SELECT … FROM sensor_data WHERE
timestamp >= datetime('now', '-{hours_back} hours') ORDER BY timestamp
DESC LIMIT {limit}`. -/
def sql_window_query (rows : List Reading) (now : Int) (hours_back limit : Nat) :
    List Reading :=
  (List.insertionSort tsGe
    (rows.filter fun r => now - 3600 * (hours_back : Int) ≤ r.timestamp)).take
    limit

/-- The pandas part of `load_data`: `if not df.empty: df =
df.sort_values('timestamp')` — defensive ascending re-sort. -/
def pandas_sort_asc (l : List Reading) : List Reading :=
  if l.isEmpty then l else List.insertionSort tsLe l

/-- `load_data` (streamlit_app.py). The connection is `none` when
`get_database_connection` failed (it has already shown `st.error` and
returned `None`); a missing table makes `pd.read_sql_query` raise, which
the `except` branch turns into `st.error` plus an empty frame. The
returned pair is (rows handed to the caller, whether an error banner was
shown). -/
def load_data (conn : Option Store) (now : Int) (hours_back limit : Nat) :
    List Reading × Bool :=
  match conn with
  | none => ([], true)
  | some s =>
    if s.schema then
      (pandas_sort_asc (sql_window_query s.rows now hours_back limit), false)
    else
      ([], true)

/-- The dictionary `get_latest_values` builds from the fetched row. -/
structure LatestValues where
  temperature : Int
  humidity : Int
  pressure : Int
  timestamp : Int
deriving DecidableEq, Repr

/-- `get_latest_values` (streamlit_app.py): `SELECT … ORDER BY timestamp
DESC LIMIT 1`, `fetchone`; `None` when the connection failed, when the
query raised (missing table), or when the table is empty. The second
component records whether an error banner was shown. -/
def get_latest_values (conn : Option Store) : Option LatestValues × Bool :=
  match conn with
  | none => (none, true)
  | some s =>
    if s.schema then
      match (List.insertionSort tsGe s.rows).head? with
      | some r => (some ⟨r.temperature, r.humidity, r.pressure, r.timestamp⟩, false)
      | none => (none, false)
    else
      (none, true)

/-- Environment input for one iteration of the producer loop
`simulate_streaming_data`: whether the whole `try` block (connect +
insert + commit) succeeds this tick, the wall-clock time used by the
`DEFAULT CURRENT_TIMESTAMP` column, and the Gaussian draws. -/
structure TickInput where
  ok : Bool
  now : Int
  temperature : Int
  humidity : Int
  pressure : Int
deriving DecidableEq, Repr

/-- What one producer-loop iteration did: the success path prints the
inserted values, the `except` branch prints the error. -/
inductive TickEvent where
  | inserted (t h p : Int)
  | errorReported
deriving DecidableEq, Repr

/-- One iteration of the `while True` body of `simulate_streaming_data`:
on success, `INSERT INTO sensor_data (temperature, humidity, pressure)`
(timestamp defaulted to the current time) then `time.sleep(5)`; on any
exception, print the error then `time.sleep(5)`. A missing table makes
the `INSERT` raise, hence the `s.schema` conjunct. The returned `Nat` is
the sleep duration of the iteration. -/
def streaming_tick (s : Store) (inp : TickInput) : Store × TickEvent × Nat :=
  if inp.ok ∧ s.schema then
    (insert_reading s inp.now inp.temperature inp.humidity inp.pressure,
      .inserted inp.temperature inp.humidity inp.pressure, 5)
  else
    (s, .errorReported, 5)

/-- `simulate_streaming_data` (setup_database.py): the `while True` loop,
run against a finite list of environment inputs; the end of the list is
the external cancellation signal (`SIGINT`, handled by `sys.exit(0)`),
which is the only thing that stops the loop. Returns the final store and
the per-tick events with their sleep durations. -/
def simulate_streaming_data (s : Store) : List TickInput → Store × List (TickEvent × Nat)
  | [] => (s, [])
  | inp :: rest =>
    let step := streaming_tick s inp
    let tail := simulate_streaming_data step.1 rest
    (tail.1, (step.2.1, step.2.2) :: tail.2)

/-- One event of the refresh scheduler's trace: a query/render cycle (one
execution of `main`'s body), or a sleep of the configured duration. -/
inductive SchedEvent where
  | cycle
  | sleep (d : Nat)
deriving DecidableEq, Repr

/-- The sidebar slider `st.slider("Refresh interval (seconds)",
min_value=1, max_value=30, value=5)`: the widget constrains the operator's
choice to the interval [1, 30]. -/
def refresh_interval_slider (choice : Nat) : Nat := max 1 (min choice 30)

/-- The slider's `value=5` argument: the default refresh interval. -/
def default_refresh_interval : Nat := 5

/-- The tail of `main` (streamlit_app.py): `if auto_refresh:
time.sleep(refresh_interval); st.rerun()` — `some d` means sleep `d`
seconds then rerun, `none` means the script ends and waits for the next
external trigger (manual "Refresh Now" button or widget interaction). -/
def main_tail (auto_refresh : Bool) (refresh_interval : Nat) : Option Nat :=
  if auto_refresh then some refresh_interval else none

/-- Trace of the refresh scheduler after one external trigger. Each list
element is the environment one script run's `load_data` call sees (the
connection state and the wall-clock time); a run is one query/render
cycle. When the loaded frame is empty, `main` shows the "No data found"
warning and returns early, never reaching the auto-refresh tail;
otherwise the run ends with `main_tail`'s decision to sleep-and-rerun or
halt. The end of the environment list bounds the observed reruns. -/
def scheduler_trace (auto_refresh : Bool) (refresh_interval hours limit : Nat) :
    List (Option Store × Int) → List SchedEvent
  | [] => []
  | (conn, now) :: rest =>
    .cycle ::
      if (load_data conn now hours limit).1.isEmpty then []
      else
        match main_tail auto_refresh refresh_interval with
        | some d =>
          .sleep d :: scheduler_trace auto_refresh refresh_interval hours limit rest
        | none => []

/-- The `__main__` block of setup_database.py: `create_database()` then
`insert_sample_data()`, starting from a fresh (schema-less, empty)
database file. -/
def seeded_store (now : Int) (vals : Nat → Int × Int × Int) : Store :=
  insert_sample_data now vals (create_database ⟨false, 1, []⟩)

/-! ## Helper lemmas -/

theorem pandas_sort_asc_perm (l : List Reading) : (pandas_sort_asc l).Perm l := by
  unfold pandas_sort_asc
  split
  · exact List.Perm.refl l
  · exact List.perm_insertionSort tsLe l

theorem pandas_sort_asc_sorted (l : List Reading) :
    List.Sorted tsLe (pandas_sort_asc l) := by
  unfold pandas_sort_asc
  split
  · next hempty =>
    rw [List.isEmpty_iff.mp hempty]
    exact List.sorted_nil
  · exact List.sorted_insertionSort tsLe l

theorem load_data_of_schema (s : Store) (now : Int) (hours limit : Nat)
    (hschema : s.schema = true) :
    load_data (some s) now hours limit
      = (pandas_sort_asc (sql_window_query s.rows now hours limit), false) := by
  simp [load_data, hschema]

theorem load_data_fst_of_schema (s : Store) (now : Int) (hours limit : Nat)
    (hschema : s.schema = true) :
    (load_data (some s) now hours limit).1
      = pandas_sort_asc (sql_window_query s.rows now hours limit) := by
  simp [load_data, hschema]

theorem pairwise_of_mem_take_of_mem_drop {R : Reading → Reading → Prop}
    {l : List Reading} {n : Nat} {a b : Reading}
    (hp : List.Pairwise R l) (ha : a ∈ l.take n) (hb : b ∈ l.drop n) : R a b := by
  rw [← List.take_append_drop n l] at hp
  exact (List.pairwise_append.mp hp).2.2 a ha b hb

theorem seed_foldl_schema (now : Int) (vals : Nat → Int × Int × Int)
    (idxs : List Nat) (s : Store) :
    (idxs.foldl (seed_step now vals) s).schema = s.schema := by
  induction idxs generalizing s with
  | nil => rfl
  | cons i is ih =>
    rw [List.foldl_cons, ih]
    rfl

theorem seed_foldl_length (now : Int) (vals : Nat → Int × Int × Int)
    (idxs : List Nat) (s : Store) :
    (idxs.foldl (seed_step now vals) s).rows.length
      = s.rows.length + idxs.length := by
  induction idxs generalizing s with
  | nil => rfl
  | cons i is ih =>
    rw [List.foldl_cons, ih]
    simp [seed_step, insert_reading]
    omega

theorem seed_foldl_mem (now : Int) (vals : Nat → Int × Int × Int)
    (idxs : List Nat) (s : Store) (r : Reading)
    (hr : r ∈ (idxs.foldl (seed_step now vals) s).rows) :
    r ∈ s.rows ∨ ∃ i ∈ idxs, r.timestamp = seed_timestamp now i := by
  induction idxs generalizing s with
  | nil => exact .inl hr
  | cons i is ih =>
    rw [List.foldl_cons] at hr
    rcases ih _ hr with hmem | ⟨j, hj, hts⟩
    · simp only [seed_step, insert_reading, List.mem_append] at hmem
      rcases hmem with hmem | hmem
      · exact .inl hmem
      · refine .inr ⟨i, List.mem_cons_self i is, ?_⟩
        rw [List.mem_singleton.mp hmem]
    · exact .inr ⟨j, List.mem_cons_of_mem i hj, hts⟩

theorem get_latest_values_head (s : Store) (r : Reading)
    (hschema : s.schema = true)
    (hhead : (List.insertionSort tsGe s.rows).head? = some r) :
    get_latest_values (some s)
      = (some ⟨r.temperature, r.humidity, r.pressure, r.timestamp⟩, false) := by
  simp [get_latest_values, hschema, hhead]

theorem seed_foldl_map_ts (now : Int) (vals : Nat → Int × Int × Int)
    (idxs : List Nat) (s : Store) :
    (idxs.foldl (seed_step now vals) s).rows.map Reading.timestamp
      = s.rows.map Reading.timestamp ++ idxs.map (seed_timestamp now) := by
  induction idxs generalizing s with
  | nil => simp
  | cons i is ih =>
    rw [List.foldl_cons, ih]
    simp [seed_step, insert_reading]

/-! ## Claim theorems -/

/-- C7: calling `create_database` (`initialize()`) a second time on a
store that already has the schema and existing rows leaves exactly one
copy of the schema (the schema flag stays set) and keeps all previously
inserted rows unchanged. -/
theorem create_database_idempotent (s : Store) :
    create_database (create_database s) = create_database s
      ∧ (create_database s).rows = s.rows
      ∧ (create_database s).schema = true :=
  ⟨rfl, rfl, rfl⟩

/-- C2: the row sequence returned by `load_data` is sorted non-decreasing
by timestamp, and the defensive pandas re-sort makes any fetched sequence
ascending regardless of the order the store returned it in. -/
theorem load_data_sorted :
    (∀ conn now hours limit, List.Sorted tsLe (load_data conn now hours limit).1)
      ∧ ∀ fetched, List.Sorted tsLe (pandas_sort_asc fetched) := by
  refine ⟨fun conn now hours limit => ?_, pandas_sort_asc_sorted⟩
  match conn with
  | none => exact List.sorted_nil
  | some s =>
    by_cases hschema : s.schema = true
    · rw [load_data_of_schema s now hours limit hschema]
      exact pandas_sort_asc_sorted _
    · simp [load_data, hschema]

/-- C8: `load_data` is deterministic — for equal table contents, equal
schema state and equal inputs it returns the same rows in the same order;
it depends on nothing else (no randomness, no hidden state: even the
auto-increment counter is irrelevant). -/
theorem load_data_deterministic (s s' : Store) (now now' : Int)
    (hours hours' limit limit' : Nat)
    (hrows : s.rows = s'.rows) (hschema : s.schema = s'.schema)
    (hnow : now = now') (hhours : hours = hours') (hlimit : limit = limit') :
    load_data (some s) now hours limit = load_data (some s') now' hours' limit' := by
  subst hnow hhours hlimit
  simp only [load_data, hrows, hschema]

/-- Witness for C8: two stores that differ in the auto-increment counter
but agree on rows and schema yield identical query results. -/
theorem load_data_deterministic_witness :
    load_data (some ⟨true, 1, []⟩) 0 24 1000
      = load_data (some ⟨true, 7, []⟩) 0 24 1000 :=
  load_data_deterministic ⟨true, 1, []⟩ ⟨true, 7, []⟩ 0 0 24 24 1000 1000
    rfl rfl rfl rfl rfl

/-- Counterexample to C9: with `auto_refresh = true` a cycle whose window
query finds no rows does NOT sleep and start the next cycle — `main`
returns early at the empty-data check, before the auto-refresh tail, so
the trace of a run against a reachable empty store halts after the single
cycle even though environment for a second cycle is available. -/
theorem scheduler_empty_data_counterexample :
    scheduler_trace true 5 24 100
        [(some ⟨true, 1, []⟩, 0), (some ⟨true, 1, []⟩, 0)] = [.cycle]
      ∧ scheduler_trace true 5 24 100
          [(some ⟨true, 1, []⟩, 0), (some ⟨true, 1, []⟩, 0)]
          ≠ [.cycle, .sleep 5, .cycle] := by
  constructor <;> decide

/-- C9 amended: with `auto_refresh = false` the scheduler performs
exactly one query/render cycle per external trigger and halts; with
`auto_refresh = true`, after each cycle whose window query returned data
it sleeps the configured interval and starts the next cycle, while a
cycle whose window query returned no rows shows the "No data found"
warning and returns early, halting without sleeping until the next
external trigger; the interval slider keeps the interval in [1, 30] and
its default value is 5. -/
theorem scheduler_refresh_behavior_amended :
    (∀ interval hours limit (e : Option Store × Int) rest,
        scheduler_trace false interval hours limit (e :: rest) = [.cycle])
      ∧ (∀ interval hours limit conn now rest,
          (load_data conn now hours limit).1 ≠ [] →
          scheduler_trace true interval hours limit ((conn, now) :: rest)
            = .cycle :: .sleep interval
                :: scheduler_trace true interval hours limit rest)
      ∧ (∀ interval hours limit conn now rest,
          (load_data conn now hours limit).1 = [] →
          scheduler_trace true interval hours limit ((conn, now) :: rest)
            = [.cycle])
      ∧ (∀ choice, 1 ≤ refresh_interval_slider choice
          ∧ refresh_interval_slider choice ≤ 30)
      ∧ refresh_interval_slider default_refresh_interval = default_refresh_interval
      ∧ default_refresh_interval = 5 := by
  refine ⟨?_, ?_, ?_, fun choice => ?_, rfl, rfl⟩
  · intro interval hours limit e rest
    obtain ⟨conn, now⟩ := e
    by_cases hemp : (load_data conn now hours limit).1.isEmpty = true
    · simp [scheduler_trace, hemp]
    · simp [scheduler_trace, hemp, main_tail]
  · intro interval hours limit conn now rest hne
    have hemp : (load_data conn now hours limit).1.isEmpty = false := by
      cases h : (load_data conn now hours limit).1.isEmpty
      · rfl
      · exact absurd (List.isEmpty_iff.mp h) hne
    simp [scheduler_trace, hemp, main_tail]
  · intro interval hours limit conn now rest hempty
    have hemp : (load_data conn now hours limit).1.isEmpty = true :=
      List.isEmpty_iff.mpr hempty
    simp [scheduler_trace, hemp]
  · unfold refresh_interval_slider
    omega

/-- Witness for C9 (amended): one manual-refresh run performs one cycle;
an auto-refresh run over a store holding one row sleeps 5 seconds and
continues; an auto-refresh run over an empty store halts after its single
cycle; and a slider choice of 7 stays within [1, 30]. -/
theorem scheduler_refresh_behavior_amended_witness :
    scheduler_trace false 5 24 100 [(some ⟨true, 1, []⟩, 0)] = [.cycle]
      ∧ scheduler_trace true 5 24 100 [(some ⟨true, 2, [⟨1, 0, 1, 2, 3⟩]⟩, 0)]
          = .cycle :: .sleep 5 :: scheduler_trace true 5 24 100 []
      ∧ scheduler_trace true 5 24 100 [(some ⟨true, 1, []⟩, 0)] = [.cycle]
      ∧ (1 ≤ refresh_interval_slider 7 ∧ refresh_interval_slider 7 ≤ 30) :=
  ⟨scheduler_refresh_behavior_amended.1 5 24 100 (some ⟨true, 1, []⟩, 0) [],
    scheduler_refresh_behavior_amended.2.1 5 24 100
      (some ⟨true, 2, [⟨1, 0, 1, 2, 3⟩]⟩) 0 [] (by decide),
    scheduler_refresh_behavior_amended.2.2.1 5 24 100
      (some ⟨true, 1, []⟩) 0 [] (by decide),
    scheduler_refresh_behavior_amended.2.2.2.1 7⟩

/-- C10: `get_latest_values` returns the `None` sentinel both when the
store is reachable with the schema in place but no rows, and when the
read fails (here: missing table) after reporting the error; the value
handed to the caller is identical in the two situations. -/
theorem get_latest_values_none_ambiguous (s s' : Store)
    (hs : s.schema = true) (hrows : s.rows = [])
    (hs' : s'.schema = false) :
    (get_latest_values (some s)).1 = none
      ∧ (get_latest_values (some s')).1 = none
      ∧ (get_latest_values (some s')).2 = true
      ∧ (get_latest_values (some s)).1 = (get_latest_values (some s')).1 := by
  simp [get_latest_values, hs, hrows, hs']

/-- Witness for C10: a schema-present empty store and a schema-missing
store both produce `none`. -/
theorem get_latest_values_none_ambiguous_witness :
    (get_latest_values (some ⟨true, 1, []⟩)).1 = none
      ∧ (get_latest_values (some ⟨false, 1, []⟩)).1 = none
      ∧ (get_latest_values (some ⟨false, 1, []⟩)).2 = true
      ∧ (get_latest_values (some ⟨true, 1, []⟩)).1
          = (get_latest_values (some ⟨false, 1, []⟩)).1 :=
  get_latest_values_none_ambiguous ⟨true, 1, []⟩ ⟨false, 1, []⟩ rfl rfl rfl

/-- Counterexample to C4: when the connection fails (`conn = none`),
`load_data` hands the caller exactly the same value as for a reachable,
schema-present, empty store — an empty row list — so the caller cannot
distinguish "store unreachable" from "no data" from what `load_data`
returns; no error value reaches the caller. -/
theorem load_data_unreachable_counterexample :
    (load_data none 0 24 1000).1 = (load_data (some ⟨true, 1, []⟩) 0 24 1000).1
      ∧ (load_data none 0 24 1000).1 = ([] : List Reading) := by
  constructor <;> rfl

/-- C4 amended: when the store is reachable with no matching rows,
`load_data` returns an empty result and shows no error; when the store is
unreachable it shows an error banner (`st.error`) but still returns the
same empty row list to the caller — the two cases differ only in the UI
error report, never in the value the caller receives. -/
theorem load_data_empty_vs_unreachable (s : Store) (now : Int)
    (hours limit : Nat) (hschema : s.schema = true)
    (hnomatch : ∀ r ∈ s.rows, r.timestamp < now - 3600 * (hours : Int)) :
    load_data (some s) now hours limit = ([], false)
      ∧ load_data none now hours limit = ([], true) := by
  refine ⟨?_, rfl⟩
  rw [load_data_of_schema s now hours limit hschema]
  have hfil : s.rows.filter
      (fun r => now - 3600 * (hours : Int) ≤ r.timestamp) = [] := by
    rw [List.filter_eq_nil_iff]
    intro a ha
    simp only [decide_eq_true_eq]
    exact not_le.mpr (hnomatch a ha)
  simp only [sql_window_query]
  rw [hfil]
  simp [pandas_sort_asc, List.insertionSort]

/-- Witness for C4 (amended): a reachable empty store gives
`([], no error)`; an unreachable store gives `([], error reported)`. -/
theorem load_data_empty_vs_unreachable_witness :
    load_data (some ⟨true, 1, []⟩) 0 24 1000 = ([], false)
      ∧ load_data none 0 24 1000 = ([], true) :=
  load_data_empty_vs_unreachable ⟨true, 1, []⟩ 0 24 1000 rfl
    (by intro r hr; cases hr)

/-- C6: the producer loop `simulate_streaming_data` never terminates on a
per-tick insert failure — it consumes every environment input until the
external cancellation signal ends the run (one event per tick), and a
failing tick reports the error, sleeps the normal 5-second interval,
leaves the store unchanged, and the loop proceeds to the next tick
exactly as it would have from the same store. -/
theorem streaming_loop_survives_failure (s : Store) (inputs : List TickInput)
    (inp : TickInput) (rest : List TickInput) (hfail : inp.ok = false) :
    (simulate_streaming_data s inputs).2.length = inputs.length
      ∧ simulate_streaming_data s (inp :: rest)
          = ((simulate_streaming_data s rest).1,
              (.errorReported, 5) :: (simulate_streaming_data s rest).2) := by
  constructor
  · induction inputs generalizing s with
    | nil => rfl
    | cons i is ih =>
      simp only [simulate_streaming_data, List.length_cons]
      rw [ih]
  · simp [simulate_streaming_data, streaming_tick, hfail]

/-- Witness for C6: a concrete run — two ticks produce two events, and a
failing first tick prepends an error report (with the 5-second sleep)
to the run over the remaining input. -/
theorem streaming_loop_survives_failure_witness :
    (simulate_streaming_data ⟨true, 1, []⟩
        [⟨true, 0, 1, 2, 3⟩, ⟨false, 5, 4, 5, 6⟩]).2.length = 2
      ∧ simulate_streaming_data ⟨true, 1, []⟩
          (⟨false, 9, 7, 8, 9⟩ :: [⟨true, 10, 1, 1, 1⟩])
          = ((simulate_streaming_data ⟨true, 1, []⟩ [⟨true, 10, 1, 1, 1⟩]).1,
              (.errorReported, 5)
                :: (simulate_streaming_data ⟨true, 1, []⟩ [⟨true, 10, 1, 1, 1⟩]).2) :=
  streaming_loop_survives_failure ⟨true, 1, []⟩
    [⟨true, 0, 1, 2, 3⟩, ⟨false, 5, 4, 5, 6⟩] ⟨false, 9, 7, 8, 9⟩
    [⟨true, 10, 1, 1, 1⟩] rfl

/-- C1: `load_data` returns at most `limit` rows; every returned row's
timestamp is at least `now` minus the lookback; and when more rows match
than the limit, the rows kept are the most recent ones — any matching
stored row left out has a timestamp no larger than every returned row's.
-/
theorem load_data_window_bound (conn : Option Store) (now : Int)
    (hours limit : Nat) :
    ((load_data conn now hours limit).1.length ≤ limit
      ∧ ∀ r ∈ (load_data conn now hours limit).1,
          now - 3600 * (hours : Int) ≤ r.timestamp)
      ∧ ∀ s : Store, conn = some s →
          ∀ b ∈ s.rows, now - 3600 * (hours : Int) ≤ b.timestamp →
            b ∉ (load_data conn now hours limit).1 →
            ∀ a ∈ (load_data conn now hours limit).1, b.timestamp ≤ a.timestamp := by
  match conn with
  | none =>
    refine ⟨⟨Nat.zero_le _, fun r hr => absurd hr (List.not_mem_nil r)⟩, ?_⟩
    intro s hs
    cases hs
  | some s =>
    by_cases hschema : s.schema = true
    case neg =>
      have hld : (load_data (some s) now hours limit).1 = [] := by
        simp [load_data, hschema]
      rw [hld]
      refine ⟨⟨Nat.zero_le _, fun r hr => absurd hr (List.not_mem_nil r)⟩, ?_⟩
      intro s' hs' b hb hbts hbnot a ha
      exact absurd ha (List.not_mem_nil a)
    case pos =>
      rw [load_data_fst_of_schema s now hours limit hschema]
      simp only [sql_window_query]
      set F := s.rows.filter
        (fun r => now - 3600 * (hours : Int) ≤ r.timestamp) with hF
      set D := List.insertionSort tsGe F with hD
      have hperm : (pandas_sort_asc (D.take limit)).Perm (D.take limit) :=
        pandas_sort_asc_perm _
      refine ⟨⟨?_, ?_⟩, ?_⟩
      · rw [hperm.length_eq, List.length_take]
        exact Nat.min_le_left _ _
      · intro r hr
        have hrD : r ∈ D := List.mem_of_mem_take (hperm.subset hr)
        have hrF : r ∈ F := (List.perm_insertionSort tsGe F).subset hrD
        have := (List.mem_filter.mp hrF).2
        exact of_decide_eq_true this
      · intro s' hs' b hb hbts hbnot a ha
        cases hs'
        have hbF : b ∈ F := List.mem_filter.mpr ⟨hb, decide_eq_true hbts⟩
        have hbD : b ∈ D := (List.perm_insertionSort tsGe F).mem_iff.mpr hbF
        have hbtake : b ∉ D.take limit := fun hmem => hbnot (hperm.mem_iff.mpr hmem)
        have hbdrop : b ∈ D.drop limit := by
          rcases List.mem_append.mp
              ((List.take_append_drop limit D) ▸ hbD) with h | h
          · exact absurd h hbtake
          · exact h
        have hatake : a ∈ D.take limit := hperm.subset ha
        have hsorted : List.Pairwise tsGe D := List.sorted_insertionSort tsGe F
        exact pairwise_of_mem_take_of_mem_drop hsorted hatake hbdrop

/-- Witness for C1: a two-row store queried with `limit = 1` keeps the
newer row; the older matching row that was cut off is no newer than the
kept one. -/
theorem load_data_window_bound_witness :
    ((load_data (some ⟨true, 3, [⟨1, 10, 1, 2, 3⟩, ⟨2, 20, 4, 5, 6⟩]⟩) 0 48 1).1.length ≤ 1
      ∧ ((0 : Int) - 3600 * (48 : Int) ≤ (20 : Int)))
      ∧ ((10 : Int) ≤ (20 : Int)) := by
  have h := load_data_window_bound
    (some ⟨true, 3, [⟨1, 10, 1, 2, 3⟩, ⟨2, 20, 4, 5, 6⟩]⟩) 0 48 1
  refine ⟨⟨h.1.1, ?_⟩, ?_⟩
  · exact h.1.2 ⟨2, 20, 4, 5, 6⟩ (by decide)
  · exact h.2 ⟨true, 3, [⟨1, 10, 1, 2, 3⟩, ⟨2, 20, 4, 5, 6⟩]⟩ rfl
      ⟨1, 10, 1, 2, 3⟩ (by decide) (by decide) (by decide)
      ⟨2, 20, 4, 5, 6⟩ (by decide)

/-- Counterexample to C3: the claim quantifies over every store state,
but `get_latest_values` picks the row with the maximal timestamp, not the
row inserted last. Inserting (temperature 1, humidity 2, pressure 3) at
time 50 into a store already holding a row with the later timestamp 100
makes `latest()` return that older insert's values (99, 98, 97), not the
values just inserted. -/
theorem insert_latest_counterexample :
    (get_latest_values
        (some (insert_reading ⟨true, 2, [⟨1, 100, 99, 98, 97⟩]⟩ 50 1 2 3))).1
        = some ⟨99, 98, 97, 100⟩
      ∧ ((get_latest_values
          (some (insert_reading ⟨true, 2, [⟨1, 100, 99, 98, 97⟩]⟩ 50 1 2 3))).1.map
            LatestValues.temperature) ≠ some 1 := by
  constructor <;> decide

/-- C3 amended: if the schema exists and every row already in the store
has a timestamp strictly below the new reading's timestamp — which holds
whenever the producer's clock has advanced past all stored rows — then
`insert` followed immediately by `get_latest_values` returns exactly the
inserted field values (and the inserted timestamp), with no error. -/
theorem insert_then_latest_roundtrip (s : Store) (ts t h p : Int)
    (hschema : s.schema = true)
    (hfresh : ∀ r ∈ s.rows, r.timestamp < ts) :
    get_latest_values (some (insert_reading s ts t h p))
      = (some ⟨t, h, p, ts⟩, false) := by
  set new : Reading := ⟨s.nextId, ts, t, h, p⟩ with hnewdef
  have hperm := List.perm_insertionSort tsGe (s.rows ++ [new])
  have hlen : (List.insertionSort tsGe (s.rows ++ [new])).length
      = s.rows.length + 1 := by
    rw [hperm.length_eq, List.length_append, List.length_singleton]
  obtain ⟨hd, tl, hLc⟩ :
      ∃ hd tl, List.insertionSort tsGe (s.rows ++ [new]) = hd :: tl := by
    cases hcase : List.insertionSort tsGe (s.rows ++ [new]) with
    | nil => rw [hcase] at hlen; simp at hlen
    | cons a b => exact ⟨a, b, rfl⟩
  have hsorted : List.Sorted tsGe (hd :: tl) :=
    hLc ▸ List.sorted_insertionSort tsGe (s.rows ++ [new])
  have hnewmem : new ∈ hd :: tl :=
    hLc ▸ hperm.mem_iff.mpr (List.mem_append_right _ (List.mem_singleton.mpr rfl))
  have hd_eq : hd = new := by
    rcases List.mem_cons.mp hnewmem with heq | htl
    · exact heq.symm
    · have hrel : new.timestamp ≤ hd.timestamp :=
        List.rel_of_sorted_cons hsorted new htl
      have hdmem : hd ∈ s.rows ++ [new] :=
        hperm.subset (hLc ▸ List.mem_cons_self hd tl)
      rcases List.mem_append.mp hdmem with hmem | hmem
      · exact absurd hrel (not_le.mpr (hfresh hd hmem))
      · exact List.mem_singleton.mp hmem
  have hhead : (List.insertionSort tsGe (insert_reading s ts t h p).rows).head?
      = some new := by
    show (List.insertionSort tsGe (s.rows ++ [new])).head? = some new
    rw [hLc, List.head?_cons, hd_eq]
  exact get_latest_values_head _ new hschema hhead

/-- Witness for C3 (amended): inserting (7, 8, 9) at time 20 into a store
whose only row is older immediately reads back as (7, 8, 9, 20). -/
theorem insert_then_latest_roundtrip_witness :
    get_latest_values
        (some (insert_reading ⟨true, 2, [⟨1, 10, 4, 5, 6⟩]⟩ 20 7 8 9))
      = (some ⟨7, 8, 9, 20⟩, false) :=
  insert_then_latest_roundtrip ⟨true, 2, [⟨1, 10, 4, 5, 6⟩]⟩ 20 7 8 9 rfl
    (by decide)

/-- C5: starting from a fresh database, `create_database` then
`insert_sample_data` inserts exactly 100 readings whose timestamps are
`now - 24h + i * 14.4min` for `i = 0, …, 99` (evenly spaced over the past
24 hours, hence all within the 24-hour window), and `load_data` with a
24-hour lookback and limit 1000 immediately afterwards returns exactly
those 100 rows. -/
theorem seeding_window_roundtrip (now : Int) (vals : Nat → Int × Int × Int) :
    (seeded_store now vals).rows.length = 100
      ∧ (seeded_store now vals).rows.map Reading.timestamp
          = (List.range 100).map (seed_timestamp now)
      ∧ (∀ r ∈ (seeded_store now vals).rows, now - 86400 ≤ r.timestamp)
      ∧ ((load_data (some (seeded_store now vals)) now 24 1000).1.Perm
          (seeded_store now vals).rows)
      ∧ (load_data (some (seeded_store now vals)) now 24 1000).1.length = 100 := by
  have hschema : (seeded_store now vals).schema = true := by
    unfold seeded_store insert_sample_data
    rw [seed_foldl_schema]
    rfl
  have hlen : (seeded_store now vals).rows.length = 100 := by
    unfold seeded_store insert_sample_data
    rw [seed_foldl_length]
    simp [create_database]
  have hmap : (seeded_store now vals).rows.map Reading.timestamp
      = (List.range 100).map (seed_timestamp now) := by
    unfold seeded_store insert_sample_data
    rw [seed_foldl_map_ts]
    simp [create_database]
  have hts : ∀ r ∈ (seeded_store now vals).rows, now - 86400 ≤ r.timestamp := by
    intro r hr
    unfold seeded_store insert_sample_data at hr
    rcases seed_foldl_mem now vals (List.range 100)
        (create_database ⟨false, 1, []⟩) r hr with hmem | ⟨i, _, hts⟩
    · simp [create_database] at hmem
    · rw [hts]
      unfold seed_timestamp
      omega
  have hfil : List.filter
      (fun r => decide (now - 3600 * ((24 : Nat) : Int) ≤ r.timestamp))
      (seeded_store now vals).rows = (seeded_store now vals).rows :=
    List.filter_eq_self.mpr fun a ha =>
      decide_eq_true (by have := hts a ha; omega)
  have hperm : ((load_data (some (seeded_store now vals)) now 24 1000).1).Perm
      (seeded_store now vals).rows := by
    rw [load_data_fst_of_schema _ now 24 1000 hschema]
    simp only [sql_window_query]
    rw [hfil]
    have hlen' : (List.insertionSort tsGe (seeded_store now vals).rows).length
        ≤ 1000 := by
      rw [(List.perm_insertionSort tsGe _).length_eq, hlen]
      omega
    rw [List.take_of_length_le hlen']
    exact (pandas_sort_asc_perm _).trans (List.perm_insertionSort tsGe _)
  exact ⟨hlen, hmap, hts, hperm, by rw [hperm.length_eq, hlen]⟩
